import Mathlib

/-!
Shallow embedding of the `measurement_error.ipynb` notebook
(repository jacobmchen/measurement_error).

Modelling conventions:
* a pandas `DataFrame` of binary observations is a `List Obs`, one record per
  row; the column-name string parameters of the Python functions become field
  selectors `Obs → Bool`;
* Python / numpy floating point arithmetic is modelled exactly over `ℚ`;
* numpy 2×2 arrays are `Mat2`, with explicit determinant / inverse / product;
* an uncaught Python exception (`ZeroDivisionError`, `numpy.linalg.LinAlgError`,
  `NameError`, quantile of an empty array) is modelled as `Except.error` with a
  message naming the exception; an ordinary `return` is `Except.ok`;
* `np.linalg.eig` is an abstract parameter `eig : Mat2 → Mat2` giving the
  matrix whose columns numpy would return as eigenvectors (the code never uses
  the eigenvalues); all theorems hold for every `eig`;
* the random number generator behind `data.sample(len(data), replace=True)` is
  an abstract stream `idx : ℕ → ℕ → ℕ` of drawn row positions (bootstrap
  iteration, slot) reduced modulo the table length;
* `x / 0 = 0` in `ℚ`; every point where the Python code would raise on a zero
  denominator is guarded explicitly, so this junk value is never the result of
  a modelled run except where numpy itself yields inf/nan silently (noted at
  the definition).
-/

/-- One row of the observation table: the hidden confounder `u` and the four
observed binary columns `x` (treatment), `y` (outcome), `w`, `z` (proxies). -/
structure Obs where
  u : Bool
  x : Bool
  y : Bool
  w : Bool
  z : Bool
deriving DecidableEq

instance : Inhabited Obs := ⟨⟨false, false, false, false, false⟩⟩

/-- Bit `k` of `i`, used to mirror `format(i, '03b')` indexing in the source:
`binString[0]` is bit 2, `binString[1]` is bit 1, `binString[2]` is bit 0. -/
def natBit (i k : ℕ) : Bool := decide ((i / 2 ^ k) % 2 = 1)

/-- A dense 2×2 real matrix `[[a, b], [c, d]]`, modelling the `np.array`
values built by the notebook. -/
structure Mat2 where
  a : ℚ
  b : ℚ
  c : ℚ
  d : ℚ
deriving DecidableEq

/-- Determinant of a 2×2 matrix. -/
def det2 (M : Mat2) : ℚ := M.a * M.d - M.b * M.c

/-- Model of `np.linalg.inv` on a 2×2 matrix.  On a singular input numpy
raises `LinAlgError`; the callers below guard `det2 M = 0` at exactly the
program points where `np.linalg.inv` is invoked. -/
def inv2 (M : Mat2) : Mat2 :=
  ⟨M.d / det2 M, -M.b / det2 M, -M.c / det2 M, M.a / det2 M⟩

/-- Model of `np.matmul` on 2×2 matrices. -/
def mul2 (M N : Mat2) : Mat2 :=
  ⟨M.a * N.a + M.b * N.c, M.a * N.b + M.b * N.d,
   M.c * N.a + M.d * N.c, M.c * N.b + M.d * N.d⟩

/-- The measurement-error matrix `M = np.array([[pWU[0], pWU[1]],
[(1-pWU[0]), (1-pWU[1])]])` built identically in `effect_restoration` and in
`recover_propensity_score`. -/
def pWUMatrix (pWU0 pWU1 : ℚ) : Mat2 := ⟨pWU0, pWU1, 1 - pWU0, 1 - pWU1⟩

/-- The line `data_subsetX0 = data[data[X] == 1]` of
`two_proxy_effect_restoration`: restriction to the treatment = 1 stratum. -/
def stratumX1 (Xf : Obs → Bool) (tbl : List Obs) : List Obs :=
  tbl.filter (fun r => Xf r == true)

/-- The matrix `P = np.array([[1, pW0_X0], [pZ0_X0, pZ0W0_X0]])` of
`two_proxy_effect_restoration`, with each entry computed as in the source by
chained boolean filters of the stratum divided by `subset_size`. -/
def momentP (Zf Wf : Obs → Bool) (sub : List Obs) : Mat2 :=
  ⟨1,
   ((sub.filter (fun r => Wf r == false)).length : ℚ) / sub.length,
   ((sub.filter (fun r => Zf r == false)).length : ℚ) / sub.length,
   (((sub.filter (fun r => Zf r == false)).filter (fun r => Wf r == false)).length : ℚ) /
     sub.length⟩

/-- The matrix `Q = np.array([[pY0_X0, pY0W0_X0], [pY0Z0_X0, pY0Z0W0_X0]])`
of `two_proxy_effect_restoration`, entries computed by the source's chained
filters (`Y == 0`, then `W == 0`; `Y == 0` then `Z == 0`, then `W == 0`). -/
def momentQ (Yf Zf Wf : Obs → Bool) (sub : List Obs) : Mat2 :=
  ⟨((sub.filter (fun r => Yf r == false)).length : ℚ) / sub.length,
   (((sub.filter (fun r => Yf r == false)).filter (fun r => Wf r == false)).length : ℚ) /
     sub.length,
   (((sub.filter (fun r => Yf r == false)).filter (fun r => Zf r == false)).length : ℚ) /
     sub.length,
   ((((sub.filter (fun r => Yf r == false)).filter (fun r => Zf r == false)).filter
       (fun r => Wf r == false)).length : ℚ) / sub.length⟩

/-- Embedding of `two_proxy_effect_restoration(X, Y, Z, W, data)`.
If the treatment = 1 stratum is empty, the first `len(...)/subset_size`
raises `ZeroDivisionError`; `np.linalg.inv(P)` and `np.linalg.inv(eigenvectors)`
raise `LinAlgError` on singular input.  `eig` abstracts `np.linalg.eig`
restricted to its eigenvector matrix. -/
def two_proxy_effect_restoration (eig : Mat2 → Mat2) (Xf Yf Zf Wf : Obs → Bool)
    (tbl : List Obs) : Except String (ℚ × ℚ) :=
  let data_subsetX0 := stratumX1 Xf tbl
  if data_subsetX0.length = 0 then
    Except.error "ZeroDivisionError: division by zero"
  else
    let P := momentP Zf Wf data_subsetX0
    let Q := momentQ Yf Zf Wf data_subsetX0
    if det2 P = 0 then Except.error "LinAlgError: Singular matrix"
    else
      let eigenvectors := eig (mul2 (inv2 P) Q)
      if det2 eigenvectors = 0 then Except.error "LinAlgError: Singular matrix"
      else
        let H_inv := inv2 eigenvectors
        let alpha_1 := 1 / H_inv.a
        let alpha_2 := 1 / H_inv.c
        Except.ok (alpha_1 * H_inv.b, alpha_2 * H_inv.d)

/-- The `observedData` loop shared by `effect_restoration` and
`recover_propensity_score`: for `i in range(8)` filter on the three bits of
`i` and divide the count by the notebook-global `size` (not by the length of
the table passed in). -/
def observedData8 (size : ℕ) (Xf Yf Wf : Obs → Bool) (tbl : List Obs) : List ℚ :=
  (List.range 8).map (fun i =>
    ((((tbl.filter (fun r => Xf r == natBit i 2)).filter
        (fun r => Yf r == natBit i 1)).filter
        (fun r => Wf r == natBit i 0)).length : ℚ) / (size : ℚ))

/-- Embedding of `effect_restoration(X, Y, W, pWU, data)`.  `size` is the
notebook-global sample size used as denominator; the guard `size = 0` marks
where Python's `len(data_subset)/size` would raise `ZeroDivisionError`, and
the singular `M` guard marks `np.linalg.inv(M)`. -/
def effect_restoration (size : ℕ) (Xf Yf Wf : Obs → Bool) (pWU0 pWU1 : ℚ)
    (tbl : List Obs) : Except String (List ℚ) :=
  if size = 0 then Except.error "ZeroDivisionError: division by zero"
  else
    let observedData := observedData8 size Xf Yf Wf tbl
    let M := pWUMatrix pWU0 pWU1
    if det2 M = 0 then Except.error "LinAlgError: Singular matrix"
    else
      let Iv := inv2 M
      Except.ok (((List.range 4).map (fun i =>
        [Iv.a * observedData.getD (2 * i) 0 + Iv.b * observedData.getD (2 * i + 1) 0,
         Iv.c * observedData.getD (2 * i) 0 + Iv.d * observedData.getD (2 * i + 1) 0])).flatten)

/-- Embedding of `recover_propensity_score(X, Y, W, pWU, data)`.  The final
two divisions are numpy float divisions: on a zero denominator numpy yields
inf/nan silently rather than raising, which the `ℚ` junk value `x / 0 = 0`
stands in for; the claims below never evaluate there. -/
def recover_propensity_score (size : ℕ) (Xf Yf Wf : Obs → Bool) (pWU0 pWU1 : ℚ)
    (tbl : List Obs) : Except String (ℚ × ℚ) :=
  let M := pWUMatrix pWU0 pWU1
  if det2 M = 0 then Except.error "LinAlgError: Singular matrix"
  else
    let Iv := inv2 M
    let a := Iv.a
    let b := Iv.b
    let c := Iv.c
    let d := Iv.d
    if size = 0 then Except.error "ZeroDivisionError: division by zero"
    else
      let observedData := observedData8 size Xf Yf Wf tbl
      let pX1W0 := observedData.getD 4 0 + observedData.getD 6 0
      let pX1W1 := observedData.getD 5 0 + observedData.getD 7 0
      let pW0 := observedData.getD 0 0 + observedData.getD 2 0 +
        observedData.getD 4 0 + observedData.getD 6 0
      let pW1 := observedData.getD 1 0 + observedData.getD 3 0 +
        observedData.getD 5 0 + observedData.getD 7 0
      Except.ok ((a * pX1W0 + b * pX1W1) / (a * pW0 + b * pW1),
                 (c * pX1W0 + d * pX1W1) / (c * pW0 + d * pW1))

/-- Model of `data.sample(len(data), replace=True)` followed by
`reset_index(drop=True)` at the value level: a fresh table of
`len(data)` rows, the `j`-th row drawn at position `pick j` (reduced modulo
the table length) of the input.  `pick` abstracts the uniform RNG. -/
def resampleTable (tbl : List Obs) (pick : ℕ → ℕ) : List Obs :=
  (List.range tbl.length).map (fun j => tbl.getD (pick j % tbl.length) default)

/-- Floor of a rational number, computed on the numerator / denominator
representation. -/
def qfloor (q : ℚ) : ℤ := Int.ediv q.num q.den

/-- Model of `np.quantile(xs, q)` with numpy's default linear interpolation:
sort, take the virtual index `h = q * (n - 1)`, and interpolate between the
neighbouring order statistics.  Total function; callers guard the empty case
(where numpy raises). -/
def npQuantile (xs : List ℚ) (q : ℚ) : ℚ :=
  let s := List.insertionSort (· ≤ ·) xs
  let h := q * ((s.length : ℚ) - 1)
  let i := (qfloor h).toNat
  let g := h - ((qfloor h : ℤ) : ℚ)
  s.getD i 0 + g * (s.getD (i + 1) 0 - s.getD i 0)

/-- The sequential `for i in range(num_bootstraps)` loop of
`compute_confidence_intervals`: resample, re-estimate, append to
`estimates0` / `estimates1`.  An unknown `method_name` hits the
`print("Invalid method"); return` branch (`Except.ok none`); an exception
inside `two_proxy_effect_restoration` propagates. -/
def bootLoop (eig : Mat2 → Mat2) (Xf Yf Zf Wf : Obs → Bool) (tbl : List Obs)
    (method_name : String) (idx : ℕ → ℕ → ℕ) :
    ℕ → Except String (Option (List ℚ × List ℚ))
  | 0 => Except.ok (some ([], []))
  | k + 1 =>
    match bootLoop eig Xf Yf Zf Wf tbl method_name idx k with
    | Except.error e => Except.error e
    | Except.ok none => Except.ok none
    | Except.ok (some (estimates0, estimates1)) =>
      let data_sampled := resampleTable tbl (idx k)
      if method_name = "two proxy" then
        match two_proxy_effect_restoration eig Xf Yf Zf Wf data_sampled with
        | Except.error e => Except.error e
        | Except.ok output =>
          Except.ok (some (estimates0 ++ [output.1], estimates1 ++ [output.2]))
      else Except.ok none

/-- Embedding of `compute_confidence_intervals(X, Y, Z, W, data, method_name,
num_bootstraps=200, alpha=0.05)` (defaults are passed explicitly here).
After the loop, `np.quantile` on the collected estimates raises on an empty
list (`num_bootstraps = 0`); reaching the final `return` with the quantile
variables unbound (unknown method, zero iterations) raises `NameError`. -/
def compute_confidence_intervals (eig : Mat2 → Mat2) (Xf Yf Zf Wf : Obs → Bool)
    (tbl : List Obs) (method_name : String) (idx : ℕ → ℕ → ℕ)
    (num_bootstraps : ℕ) (alpha : ℚ) : Except String (Option (List (ℚ × ℚ))) :=
  let Ql := alpha / 2
  let Qu := 1 - alpha / 2
  match bootLoop eig Xf Yf Zf Wf tbl method_name idx num_bootstraps with
  | Except.error e => Except.error e
  | Except.ok none => Except.ok none
  | Except.ok (some (estimates0, estimates1)) =>
    if method_name = "two proxy" then
      if estimates0.length = 0 then Except.error "IndexError: empty quantile input"
      else
        Except.ok (some [(npQuantile estimates0 Ql, npQuantile estimates0 Qu),
                         (npQuantile estimates1 Ql, npQuantile estimates1 Qu)])
    else Except.error "NameError: quantile variables undefined"

/-- A Python heap restricted to the DataFrame objects: cell `i` holds the row
list of the `i`-th allocated frame.  Variables of the notebook are modelled
as indices into the store. -/
abbrev Store := List (List Obs)

/-- The statement `data_sampled.reset_index(drop=True, inplace=True)`:
in-place it renumbers the integer index of the frame it is called on;
with `drop=True` the row values and their order are unchanged, so on the
row-list representation it is the identity — the point is which store cell
it is applied to. -/
def resetIndexDropTrue (t : List Obs) : List Obs := t

/-- Store-level rendering of the body of `two_proxy_effect_restoration`:
`data[data[X] == 1]` and every subsequent boolean filter allocate fresh
frames (appended cells); no pre-existing cell is written.  The returned value
is the pure result on the table read from cell `r`. -/
def twoProxyStore (eig : Mat2 → Mat2) (Xf Yf Zf Wf : Obs → Bool)
    (s : Store) (r : ℕ) : Store × Except String (ℚ × ℚ) :=
  let data := s.getD r []
  let data_subsetX0 := stratumX1 Xf data
  let t1 := data_subsetX0.filter (fun row => Wf row == false)
  let t2 := data_subsetX0.filter (fun row => Zf row == false)
  let t3 := t2.filter (fun row => Wf row == false)
  let t4 := data_subsetX0.filter (fun row => Yf row == false)
  let t5 := t4.filter (fun row => Wf row == false)
  let t6 := data_subsetX0.filter (fun row => Yf row == false)
  let t7 := t6.filter (fun row => Zf row == false)
  let t8 := t7.filter (fun row => Wf row == false)
  (s ++ [data_subsetX0, t1, t2, t3, t4, t5, t6, t7, t8],
   two_proxy_effect_restoration eig Xf Yf Zf Wf data)

/-- Store-level rendering of the bootstrap loop of
`compute_confidence_intervals` with `method_name = "two proxy"`: each
iteration allocates `data_sampled = data.sample(len(data), replace=True)` as
a fresh cell, mutates that fresh cell in place via
`reset_index(drop=True, inplace=True)`, and runs the estimator on it;
`dref` is the cell the caller's `data` variable points to.  An exception
from the estimator propagates out of the loop. -/
def bootStoreLoop (eig : Mat2 → Mat2) (Xf Yf Zf Wf : Obs → Bool)
    (idx : ℕ → ℕ → ℕ) (dref : ℕ) : ℕ → Store → Except String Store
  | 0, s => Except.ok s
  | k + 1, s =>
    match bootStoreLoop eig Xf Yf Zf Wf idx dref k s with
    | Except.error e => Except.error e
    | Except.ok s1 =>
      let data_sampled := resampleTable (s1.getD dref []) (idx k)
      let sref := s1.length
      let s2 := s1 ++ [data_sampled]
      let s3 := s2.set sref (resetIndexDropTrue (s2.getD sref []))
      match two_proxy_effect_restoration eig Xf Yf Zf Wf (s3.getD sref []) with
      | Except.error e => Except.error e
      | Except.ok _ => Except.ok s3

/-- Spec side: an empirical probability, "counting matching rows divided by
subset size". -/
def specEmpProb (p : Obs → Bool) (rows : List Obs) : ℚ :=
  (rows.countP p : ℚ) / rows.length

/-- Spec side: `P = [[1, p(W=0)], [p(Z=0), p(Z=0,W=0)]]` over a stratum, with
each probability a single joint count divided by the stratum size. -/
def specMomentP (Zf Wf : Obs → Bool) (sub : List Obs) : Mat2 :=
  ⟨1,
   specEmpProb (fun r => Wf r == false) sub,
   specEmpProb (fun r => Zf r == false) sub,
   specEmpProb (fun r => Zf r == false && Wf r == false) sub⟩

/-- Spec side: `Q = [[p(Y=0), p(Y=0,W=0)], [p(Y=0,Z=0), p(Y=0,Z=0,W=0)]]`
over a stratum. -/
def specMomentQ (Yf Zf Wf : Obs → Bool) (sub : List Obs) : Mat2 :=
  ⟨specEmpProb (fun r => Yf r == false) sub,
   specEmpProb (fun r => Yf r == false && Wf r == false) sub,
   specEmpProb (fun r => Yf r == false && Zf r == false) sub,
   specEmpProb (fun r => Yf r == false && Zf r == false && Wf r == false) sub⟩

/-- Spec side: the eigenvector matrix `H` of `P⁻¹ Q` over a stratum, with
`P`, `Q` the spec-side moment matrices and `eig` the abstracted
`np.linalg.eig`. -/
def specEigenH (eig : Mat2 → Mat2) (Yf Zf Wf : Obs → Bool) (sub : List Obs) : Mat2 :=
  eig (mul2 (inv2 (specMomentP Zf Wf sub)) (specMomentQ Yf Zf Wf sub))

/-- Spec side: cell `i` of the observed joint distribution over
(treatment, outcome, proxy), a single joint count divided by `size`. -/
def specCell (size : ℕ) (Xf Yf Wf : Obs → Bool) (tbl : List Obs) (i : ℕ) : ℚ :=
  (tbl.countP (fun r =>
    Xf r == natBit i 2 && Yf r == natBit i 1 && Wf r == natBit i 0) : ℚ) / size

/-- Spec side: the empirical (treatment, outcome, proxy) distribution of a
table — joint counts divided by the table's own row count. -/
def specEmpirical8 (Xf Yf Wf : Obs → Bool) (tbl : List Obs) : List ℚ :=
  (List.range 8).map (specCell tbl.length Xf Yf Wf tbl)

/-- Concrete instantiation of the abstract `np.linalg.eig`, used only to
instantiate universally quantified theorems at a specific input. -/
def eigConst : Mat2 → Mat2 := fun _ => ⟨1, 1, 1, 2⟩

/-- Concrete table: two treated rows with opposite proxy values and one
untreated row. -/
def tblTwo : List Obs :=
  [⟨false, true, false, false, false⟩,
   ⟨false, true, false, true, true⟩,
   ⟨false, false, false, false, false⟩]

/-- Concrete one-row table (treatment 1, outcome 1, proxy w 1). -/
def tblOne : List Obs := [⟨false, true, true, true, false⟩]

/-- Concrete table whose treatment = 1 stratum makes `P` singular: the two
proxies are exactly independent there (all four (w, z) combinations once). -/
def tblSing : List Obs :=
  [⟨false, true, false, false, false⟩,
   ⟨false, true, false, true, false⟩,
   ⟨false, true, false, false, true⟩,
   ⟨false, true, false, true, true⟩]

/-- Concrete two-row table (both treated, outcome 0, proxy w 0 and 1). -/
def tblProp : List Obs :=
  [⟨false, true, false, false, false⟩,
   ⟨false, true, false, true, false⟩]

/-- Spec side: the first propensity-score denominator
`a * p(W=0) + b * p(W=1)` of `recover_propensity_score`, with the observed
cells normalized by the table's own row count. -/
def specPropDenomA (Xf Yf Wf : Obs → Bool) (p0 p1 : ℚ) (tbl : List Obs) : ℚ :=
  (inv2 (pWUMatrix p0 p1)).a *
    (specCell tbl.length Xf Yf Wf tbl 0 + specCell tbl.length Xf Yf Wf tbl 2 +
     specCell tbl.length Xf Yf Wf tbl 4 + specCell tbl.length Xf Yf Wf tbl 6) +
  (inv2 (pWUMatrix p0 p1)).b *
    (specCell tbl.length Xf Yf Wf tbl 1 + specCell tbl.length Xf Yf Wf tbl 3 +
     specCell tbl.length Xf Yf Wf tbl 5 + specCell tbl.length Xf Yf Wf tbl 7)

/-- Spec side: the second propensity-score denominator
`c * p(W=0) + d * p(W=1)` of `recover_propensity_score`, normalized by the
table's own row count. -/
def specPropDenomB (Xf Yf Wf : Obs → Bool) (p0 p1 : ℚ) (tbl : List Obs) : ℚ :=
  (inv2 (pWUMatrix p0 p1)).c *
    (specCell tbl.length Xf Yf Wf tbl 0 + specCell tbl.length Xf Yf Wf tbl 2 +
     specCell tbl.length Xf Yf Wf tbl 4 + specCell tbl.length Xf Yf Wf tbl 6) +
  (inv2 (pWUMatrix p0 p1)).d *
    (specCell tbl.length Xf Yf Wf tbl 1 + specCell tbl.length Xf Yf Wf tbl 3 +
     specCell tbl.length Xf Yf Wf tbl 5 + specCell tbl.length Xf Yf Wf tbl 7)

/-! ## Bridging lemmas: chained boolean filters versus joint counts -/

theorem filter_length_countP (p : Obs → Bool) (l : List Obs) :
    (l.filter p).length = l.countP p :=
  (List.countP_eq_length_filter p l).symm

theorem filter2_length_countP (p q : Obs → Bool) (l : List Obs) :
    ((l.filter q).filter p).length = l.countP (fun a => p a && q a) := by
  rw [← List.countP_eq_length_filter, List.countP_filter]

theorem filter3_length_countP (p q s : Obs → Bool) (l : List Obs) :
    (((l.filter s).filter q).filter p).length =
      l.countP (fun a => (p a && q a) && s a) := by
  rw [← List.countP_eq_length_filter, List.countP_filter, List.countP_filter]

theorem momentP_eq_spec (Zf Wf : Obs → Bool) (sub : List Obs) :
    momentP Zf Wf sub = specMomentP Zf Wf sub := by
  have h : sub.countP (fun a => (Wf a == false) && (Zf a == false)) =
      sub.countP (fun a => (Zf a == false) && (Wf a == false)) :=
    List.countP_congr (fun a _ => by cases Zf a <;> cases Wf a <;> decide)
  unfold momentP specMomentP specEmpProb
  rw [filter_length_countP, filter_length_countP, filter2_length_countP, h]

theorem momentQ_eq_spec (Yf Zf Wf : Obs → Bool) (sub : List Obs) :
    momentQ Yf Zf Wf sub = specMomentQ Yf Zf Wf sub := by
  have hb : sub.countP (fun a => (Wf a == false) && (Yf a == false)) =
      sub.countP (fun a => (Yf a == false) && (Wf a == false)) :=
    List.countP_congr (fun a _ => by cases Yf a <;> cases Wf a <;> decide)
  have hc : sub.countP (fun a => (Zf a == false) && (Yf a == false)) =
      sub.countP (fun a => (Yf a == false) && (Zf a == false)) :=
    List.countP_congr (fun a _ => by cases Yf a <;> cases Zf a <;> decide)
  have hd : sub.countP (fun a => ((Wf a == false) && (Zf a == false)) && (Yf a == false)) =
      sub.countP (fun a => ((Yf a == false) && (Zf a == false)) && (Wf a == false)) :=
    List.countP_congr (fun a _ => by cases Yf a <;> cases Zf a <;> cases Wf a <;> decide)
  unfold momentQ specMomentQ specEmpProb
  rw [filter_length_countP, filter2_length_countP, filter2_length_countP,
    filter3_length_countP, hb, hc, hd]

theorem observedData8_eq_spec (size : ℕ) (Xf Yf Wf : Obs → Bool) (tbl : List Obs) :
    observedData8 size Xf Yf Wf tbl = (List.range 8).map (specCell size Xf Yf Wf tbl) := by
  unfold observedData8 specCell
  apply List.map_congr_left
  intro i _
  rw [filter3_length_countP]
  have h : tbl.countP
      (fun a => ((Wf a == natBit i 0) && (Yf a == natBit i 1)) && (Xf a == natBit i 2)) =
      tbl.countP
      (fun a => ((Xf a == natBit i 2) && (Yf a == natBit i 1)) && (Wf a == natBit i 0)) :=
    List.countP_congr (fun a _ => by
      cases hx : (Xf a == natBit i 2) <;> cases hy : (Yf a == natBit i 1) <;>
        cases hw : (Wf a == natBit i 0) <;> simp [hx, hy, hw])
  rw [h]

/-! ## Linear algebra helper lemmas for the 2×2 error matrix -/

theorem inv2_mulVec_left (M : Mat2) (h : det2 M ≠ 0) (v0 v1 : ℚ) :
    (inv2 M).a * (M.a * v0 + M.b * v1) + (inv2 M).b * (M.c * v0 + M.d * v1) = v0 := by
  unfold inv2 det2 at *
  field_simp
  ring

theorem inv2_mulVec_right (M : Mat2) (h : det2 M ≠ 0) (v0 v1 : ℚ) :
    (inv2 M).c * (M.a * v0 + M.b * v1) + (inv2 M).d * (M.c * v0 + M.d * v1) = v1 := by
  unfold inv2 det2 at *
  field_simp
  ring

theorem inv2_pWU_colsum_left (p0 p1 : ℚ) (h : det2 (pWUMatrix p0 p1) ≠ 0) :
    (inv2 (pWUMatrix p0 p1)).a + (inv2 (pWUMatrix p0 p1)).c = 1 := by
  unfold inv2 det2 pWUMatrix at *
  field_simp
  ring

theorem inv2_pWU_colsum_right (p0 p1 : ℚ) (h : det2 (pWUMatrix p0 p1) ≠ 0) :
    (inv2 (pWUMatrix p0 p1)).b + (inv2 (pWUMatrix p0 p1)).d = 1 := by
  unfold inv2 det2 pWUMatrix at *
  field_simp
  ring

/-! ## Claim C1 -/

/-- C1: for every observation table whose treatment = 1 stratum is non-empty,
with `P` invertible and the eigenvector matrix `H` of `P⁻¹Q` invertible,
`two_proxy_effect_restoration(X, Y, Z, W, data)` returns exactly the pair
`(H⁻¹[0][1]/H⁻¹[0][0], H⁻¹[1][1]/H⁻¹[1][0])`, where
`P = [[1, p(W=0)], [p(Z=0), p(Z=0,W=0)]]` and
`Q = [[p(Y=0), p(Y=0,W=0)], [p(Y=0,Z=0), p(Y=0,Z=0,W=0)]]` are assembled from
empirical conditional probabilities computed by counting within the
treatment = 1 stratum and dividing by the stratum size. -/
theorem two_proxy_formula (eig : Mat2 → Mat2) (Xf Yf Zf Wf : Obs → Bool)
    (tbl : List Obs)
    (hsub : stratumX1 Xf tbl ≠ [])
    (hP : det2 (specMomentP Zf Wf (stratumX1 Xf tbl)) ≠ 0)
    (hH : det2 (specEigenH eig Yf Zf Wf (stratumX1 Xf tbl)) ≠ 0) :
    two_proxy_effect_restoration eig Xf Yf Zf Wf tbl =
      Except.ok
        ((inv2 (specEigenH eig Yf Zf Wf (stratumX1 Xf tbl))).b /
           (inv2 (specEigenH eig Yf Zf Wf (stratumX1 Xf tbl))).a,
         (inv2 (specEigenH eig Yf Zf Wf (stratumX1 Xf tbl))).d /
           (inv2 (specEigenH eig Yf Zf Wf (stratumX1 Xf tbl))).c) := by
  have hlen : ¬(stratumX1 Xf tbl).length = 0 := by
    simpa [List.length_eq_zero] using hsub
  unfold specEigenH at hH ⊢
  simp only [two_proxy_effect_restoration, momentP_eq_spec, momentQ_eq_spec]
  rw [if_neg hlen, if_neg hP, if_neg hH]
  rw [one_div_mul_eq_div, one_div_mul_eq_div]

/-- Witness for C1 at the concrete table `tblTwo` and eigendecomposition
`eigConst`. -/
theorem two_proxy_formula_witness :
    (stratumX1 Obs.x tblTwo ≠ [] ∧
      det2 (specMomentP Obs.z Obs.w (stratumX1 Obs.x tblTwo)) ≠ 0 ∧
      det2 (specEigenH eigConst Obs.y Obs.z Obs.w (stratumX1 Obs.x tblTwo)) ≠ 0) ∧
    two_proxy_effect_restoration eigConst Obs.x Obs.y Obs.z Obs.w tblTwo =
      Except.ok (-(1 : ℚ) / 2, -1) := by
  refine ⟨⟨?_, ?_, ?_⟩, ?_⟩
  · decide
  · norm_num [specMomentP, specEmpProb, stratumX1, tblTwo, det2]
  · norm_num [specEigenH, specMomentP, specMomentQ, specEmpProb, stratumX1,
      tblTwo, det2, inv2, mul2, eigConst]
  · rw [two_proxy_formula eigConst Obs.x Obs.y Obs.z Obs.w tblTwo
      (by decide)
      (by norm_num [specMomentP, specEmpProb, stratumX1, tblTwo, det2])
      (by norm_num [specEigenH, specMomentP, specMomentQ, specEmpProb, stratumX1,
        tblTwo, det2, inv2, mul2, eigConst])]
    norm_num [specEigenH, specMomentP, specMomentQ, specEmpProb, stratumX1,
      tblTwo, det2, inv2, mul2, eigConst]

/-! ## Claim C2 -/

/-- Helper: under the guards, `effect_restoration` returns, for each of the
four (treatment, outcome) pairs, `M⁻¹` applied to the observed proxy
probability 2-vector. -/
theorem effect_restoration_ok (size : ℕ) (Xf Yf Wf : Obs → Bool) (p0 p1 : ℚ)
    (tbl : List Obs) (hsize : size ≠ 0) (hdet : det2 (pWUMatrix p0 p1) ≠ 0) :
    effect_restoration size Xf Yf Wf p0 p1 tbl =
      Except.ok
        [(inv2 (pWUMatrix p0 p1)).a * specCell size Xf Yf Wf tbl 0 +
           (inv2 (pWUMatrix p0 p1)).b * specCell size Xf Yf Wf tbl 1,
         (inv2 (pWUMatrix p0 p1)).c * specCell size Xf Yf Wf tbl 0 +
           (inv2 (pWUMatrix p0 p1)).d * specCell size Xf Yf Wf tbl 1,
         (inv2 (pWUMatrix p0 p1)).a * specCell size Xf Yf Wf tbl 2 +
           (inv2 (pWUMatrix p0 p1)).b * specCell size Xf Yf Wf tbl 3,
         (inv2 (pWUMatrix p0 p1)).c * specCell size Xf Yf Wf tbl 2 +
           (inv2 (pWUMatrix p0 p1)).d * specCell size Xf Yf Wf tbl 3,
         (inv2 (pWUMatrix p0 p1)).a * specCell size Xf Yf Wf tbl 4 +
           (inv2 (pWUMatrix p0 p1)).b * specCell size Xf Yf Wf tbl 5,
         (inv2 (pWUMatrix p0 p1)).c * specCell size Xf Yf Wf tbl 4 +
           (inv2 (pWUMatrix p0 p1)).d * specCell size Xf Yf Wf tbl 5,
         (inv2 (pWUMatrix p0 p1)).a * specCell size Xf Yf Wf tbl 6 +
           (inv2 (pWUMatrix p0 p1)).b * specCell size Xf Yf Wf tbl 7,
         (inv2 (pWUMatrix p0 p1)).c * specCell size Xf Yf Wf tbl 6 +
           (inv2 (pWUMatrix p0 p1)).d * specCell size Xf Yf Wf tbl 7] := by
  simp only [effect_restoration]
  rw [if_neg hsize, if_neg hdet]
  simp only [observedData8_eq_spec]
  rfl

/-- C2: with a known invertible 2×2 proxy-error matrix `M`, the single-proxy
`effect_restoration` returns for each (treatment, outcome) pair exactly
`M⁻¹` left-multiplied by the observed proxy-probability 2-vector; and if the
observed vectors arise from a latent table by left-multiplication by `M`,
the latent table is recovered exactly. -/
theorem effect_restoration_matrix_recovery (size : ℕ) (Xf Yf Wf : Obs → Bool)
    (p0 p1 : ℚ) (tbl : List Obs)
    (hsize : size ≠ 0) (hdet : det2 (pWUMatrix p0 p1) ≠ 0) :
    (effect_restoration size Xf Yf Wf p0 p1 tbl =
      Except.ok
        [(inv2 (pWUMatrix p0 p1)).a * specCell size Xf Yf Wf tbl 0 +
           (inv2 (pWUMatrix p0 p1)).b * specCell size Xf Yf Wf tbl 1,
         (inv2 (pWUMatrix p0 p1)).c * specCell size Xf Yf Wf tbl 0 +
           (inv2 (pWUMatrix p0 p1)).d * specCell size Xf Yf Wf tbl 1,
         (inv2 (pWUMatrix p0 p1)).a * specCell size Xf Yf Wf tbl 2 +
           (inv2 (pWUMatrix p0 p1)).b * specCell size Xf Yf Wf tbl 3,
         (inv2 (pWUMatrix p0 p1)).c * specCell size Xf Yf Wf tbl 2 +
           (inv2 (pWUMatrix p0 p1)).d * specCell size Xf Yf Wf tbl 3,
         (inv2 (pWUMatrix p0 p1)).a * specCell size Xf Yf Wf tbl 4 +
           (inv2 (pWUMatrix p0 p1)).b * specCell size Xf Yf Wf tbl 5,
         (inv2 (pWUMatrix p0 p1)).c * specCell size Xf Yf Wf tbl 4 +
           (inv2 (pWUMatrix p0 p1)).d * specCell size Xf Yf Wf tbl 5,
         (inv2 (pWUMatrix p0 p1)).a * specCell size Xf Yf Wf tbl 6 +
           (inv2 (pWUMatrix p0 p1)).b * specCell size Xf Yf Wf tbl 7,
         (inv2 (pWUMatrix p0 p1)).c * specCell size Xf Yf Wf tbl 6 +
           (inv2 (pWUMatrix p0 p1)).d * specCell size Xf Yf Wf tbl 7]) ∧
    ∀ latent : ℕ → ℚ,
      (∀ i, i < 4 →
        specCell size Xf Yf Wf tbl (2 * i) =
          p0 * latent (2 * i) + p1 * latent (2 * i + 1) ∧
        specCell size Xf Yf Wf tbl (2 * i + 1) =
          (1 - p0) * latent (2 * i) + (1 - p1) * latent (2 * i + 1)) →
      effect_restoration size Xf Yf Wf p0 p1 tbl =
        Except.ok [latent 0, latent 1, latent 2, latent 3,
                   latent 4, latent 5, latent 6, latent 7] := by
  refine ⟨effect_restoration_ok size Xf Yf Wf p0 p1 tbl hsize hdet, ?_⟩
  intro latent hl
  rw [effect_restoration_ok size Xf Yf Wf p0 p1 tbl hsize hdet]
  have h0 := hl 0 (by norm_num)
  have h1 := hl 1 (by norm_num)
  have h2 := hl 2 (by norm_num)
  have h3 := hl 3 (by norm_num)
  norm_num at h0 h1 h2 h3
  rw [h0.1, h0.2, h1.1, h1.2, h2.1, h2.2, h3.1, h3.2]
  simp only [Except.ok.injEq, List.cons.injEq, and_true]
  refine ⟨?_, ?_, ?_, ?_, ?_, ?_, ?_, ?_⟩
  · exact inv2_mulVec_left _ hdet _ _
  · exact inv2_mulVec_right _ hdet _ _
  · exact inv2_mulVec_left _ hdet _ _
  · exact inv2_mulVec_right _ hdet _ _
  · exact inv2_mulVec_left _ hdet _ _
  · exact inv2_mulVec_right _ hdet _ _
  · exact inv2_mulVec_left _ hdet _ _
  · exact inv2_mulVec_right _ hdet _ _

/-- Witness for C2 at the one-row table `tblOne`, `size = 1`, and error
matrix entries `p(W=0|U=0) = 3/4`, `p(W=0|U=1) = 1/4`. -/
theorem effect_restoration_matrix_recovery_witness :
    ((1 : ℕ) ≠ 0 ∧ det2 (pWUMatrix (3 / 4) (1 / 4)) ≠ 0) ∧
    effect_restoration 1 Obs.x Obs.y Obs.w (3 / 4) (1 / 4) tblOne =
      Except.ok [0, 0, 0, 0, 0, 0, -(1 : ℚ) / 2, 3 / 2] := by
  refine ⟨⟨by norm_num, by norm_num [det2, pWUMatrix]⟩, ?_⟩
  rw [(effect_restoration_matrix_recovery 1 Obs.x Obs.y Obs.w (3 / 4) (1 / 4) tblOne
    (by norm_num) (by norm_num [det2, pWUMatrix])).1]
  norm_num [specCell, tblOne, natBit, inv2, det2, pWUMatrix,
    List.countP_cons, List.countP_nil]

/-! ## Claim C3 -/

/-- C3 counterexample: at the one-row table `tblOne` with the notebook-global
`size = 10000`, `effect_restoration` with the identity error matrix
(`pWU = (1, 0)`) does not return the empirical (treatment, outcome, proxy)
distribution of that table: it returns the counts divided by `size`
(summing to 1/10000), not by the table's own row count. -/
theorem single_proxy_identity_counterexample :
    effect_restoration 10000 Obs.x Obs.y Obs.w 1 0 tblOne ≠
      Except.ok (specEmpirical8 Obs.x Obs.y Obs.w tblOne) := by
  rw [effect_restoration_ok 10000 Obs.x Obs.y Obs.w 1 0 tblOne (by norm_num)
    (by norm_num [det2, pWUMatrix])]
  norm_num [specEmpirical8, specCell, tblOne, natBit, inv2, det2, pWUMatrix,
    List.countP_cons, List.countP_nil, List.range_succ]

/-- C3 amended: applying the single-proxy `effect_restoration` with the
identity error matrix (`pWU` encoding `p(proxy=0|U=0)=1`, `p(proxy=0|U=1)=0`)
returns the observed distribution the function computes — joint counts
divided by the notebook-global `size` — unchanged (round-trip identity); this
equals the observed empirical (treatment, outcome, proxy) distribution of the
input table exactly when the table's row count equals `size`. -/
theorem single_proxy_identity_roundtrip (size : ℕ) (Xf Yf Wf : Obs → Bool)
    (tbl : List Obs) (hsize : size ≠ 0) :
    effect_restoration size Xf Yf Wf 1 0 tbl =
      Except.ok (observedData8 size Xf Yf Wf tbl) ∧
    (tbl.length = size →
      effect_restoration size Xf Yf Wf 1 0 tbl =
        Except.ok (specEmpirical8 Xf Yf Wf tbl)) := by
  have hdet : det2 (pWUMatrix 1 0) ≠ 0 := by norm_num [det2, pWUMatrix]
  have hA : effect_restoration size Xf Yf Wf 1 0 tbl =
      Except.ok (observedData8 size Xf Yf Wf tbl) := by
    rw [effect_restoration_ok size Xf Yf Wf 1 0 tbl hsize hdet, observedData8_eq_spec]
    norm_num [inv2, det2, pWUMatrix, List.range_succ]
  refine ⟨hA, fun hlen => ?_⟩
  rw [hA, observedData8_eq_spec]
  unfold specEmpirical8
  rw [hlen]

/-- Witness for the amended C3 at the one-row table `tblOne` with
`size = 1` (row count equal to the global size). -/
theorem single_proxy_identity_roundtrip_witness :
    ((1 : ℕ) ≠ 0 ∧ tblOne.length = 1) ∧
    effect_restoration 1 Obs.x Obs.y Obs.w 1 0 tblOne =
      Except.ok (specEmpirical8 Obs.x Obs.y Obs.w tblOne) :=
  ⟨⟨by norm_num, by decide⟩,
   (single_proxy_identity_roundtrip 1 Obs.x Obs.y Obs.w tblOne (by norm_num)).2
     (by decide)⟩

/-! ## Claim C4 -/

theorem sum_map_add_nat (is : List ℕ) (f g : ℕ → ℕ) :
    (is.map (fun i => f i + g i)).sum = (is.map f).sum + (is.map g).sum := by
  induction is with
  | nil => rfl
  | cons a l ih => simp [ih]; omega

theorem pattern_indicator_sum (b2 b1 b0 : Bool) :
    ((List.range 8).map (fun i =>
      if (b2 == natBit i 2 && b1 == natBit i 1 && b0 == natBit i 0) = true
      then 1 else 0)).sum = 1 := by
  cases b2 <;> cases b1 <;> cases b0 <;> rfl

/-- Each row matches exactly one of the eight binary patterns, so the eight
joint counts partition the table. -/
theorem countP_partition (Xf Yf Wf : Obs → Bool) (tbl : List Obs) :
    ((List.range 8).map (fun i => tbl.countP (fun r =>
      Xf r == natBit i 2 && Yf r == natBit i 1 && Wf r == natBit i 0))).sum =
      tbl.length := by
  induction tbl with
  | nil => rfl
  | cons r t ih =>
    simp only [List.countP_cons]
    rw [sum_map_add_nat (List.range 8)
      (fun i => t.countP (fun a =>
        Xf a == natBit i 2 && Yf a == natBit i 1 && Wf a == natBit i 0))
      (fun i => if (Xf r == natBit i 2 && Yf r == natBit i 1 && Wf r == natBit i 0) = true
        then 1 else 0)]
    rw [ih, pattern_indicator_sum (Xf r) (Yf r) (Wf r)]
    simp

/-- The eight observed cells sum to the row count over the global size. -/
theorem specCell_sum (size : ℕ) (Xf Yf Wf : Obs → Bool) (tbl : List Obs) :
    ((List.range 8).map (specCell size Xf Yf Wf tbl)).sum = (tbl.length : ℚ) / size := by
  unfold specCell
  simp only [div_eq_mul_inv]
  rw [List.sum_map_mul_right]
  congr 1
  rw [← countP_partition Xf Yf Wf tbl]
  rw [Nat.cast_list_sum, List.map_map]
  rfl

/-- C4: for a table whose row count equals the global `size` (so that the
observed cells form a probability distribution) and an invertible error
matrix, the 8-outcome distribution returned by the single-proxy
`effect_restoration` sums to exactly 1 (hence a fortiori within any
floating-point tolerance such as 1e-9). -/
theorem single_proxy_sum_one (size : ℕ) (Xf Yf Wf : Obs → Bool) (p0 p1 : ℚ)
    (tbl : List Obs) (hsize : size ≠ 0) (hlen : tbl.length = size)
    (hdet : det2 (pWUMatrix p0 p1) ≠ 0) :
    ∃ es, effect_restoration size Xf Yf Wf p0 p1 tbl = Except.ok es ∧ es.sum = 1 := by
  refine ⟨_, effect_restoration_ok size Xf Yf Wf p0 p1 tbl hsize hdet, ?_⟩
  have ha := inv2_pWU_colsum_left p0 p1 hdet
  have hb := inv2_pWU_colsum_right p0 p1 hdet
  have hsum := specCell_sum size Xf Yf Wf tbl
  rw [hlen, div_self (Nat.cast_ne_zero.mpr hsize)] at hsum
  simp only [List.range_succ, List.range_zero, List.map_append, List.map_cons,
    List.map_nil, List.sum_append, List.sum_cons, List.sum_nil] at hsum
  simp only [List.sum_cons, List.sum_nil]
  linear_combination
    (specCell size Xf Yf Wf tbl 0 + specCell size Xf Yf Wf tbl 2 +
      specCell size Xf Yf Wf tbl 4 + specCell size Xf Yf Wf tbl 6) * ha +
    (specCell size Xf Yf Wf tbl 1 + specCell size Xf Yf Wf tbl 3 +
      specCell size Xf Yf Wf tbl 5 + specCell size Xf Yf Wf tbl 7) * hb + hsum

/-- Witness for C4 at the one-row table `tblOne` with `size = 1`. -/
theorem single_proxy_sum_one_witness :
    ((1 : ℕ) ≠ 0 ∧ tblOne.length = 1 ∧ det2 (pWUMatrix (3 / 4) (1 / 4)) ≠ 0) ∧
    ∃ es, effect_restoration 1 Obs.x Obs.y Obs.w (3 / 4) (1 / 4) tblOne =
      Except.ok es ∧ es.sum = 1 :=
  ⟨⟨by norm_num, by decide, by norm_num [det2, pWUMatrix]⟩,
   single_proxy_sum_one 1 Obs.x Obs.y Obs.w (3 / 4) (1 / 4) tblOne
     (by norm_num) (by decide) (by norm_num [det2, pWUMatrix])⟩

/-! ## Claim C10 -/

theorem specCell_scale (size : ℕ) (Xf Yf Wf : Obs → Bool) (tbl : List Obs)
    (hn : tbl.length ≠ 0) (i : ℕ) :
    specCell size Xf Yf Wf tbl i =
      ((tbl.length : ℚ) / size) * specCell tbl.length Xf Yf Wf tbl i := by
  unfold specCell
  rcases eq_or_ne (size : ℚ) 0 with hs | hs
  · simp [hs]
  · have hnq : (tbl.length : ℚ) ≠ 0 := Nat.cast_ne_zero.mpr hn
    field_simp
    ring

/-- Helper: under the guards, `recover_propensity_score` returns the two
ratio estimates expressed through the observed cells. -/
theorem recover_propensity_ok (size : ℕ) (Xf Yf Wf : Obs → Bool) (p0 p1 : ℚ)
    (tbl : List Obs) (hdet : det2 (pWUMatrix p0 p1) ≠ 0) (hsize : size ≠ 0) :
    recover_propensity_score size Xf Yf Wf p0 p1 tbl =
      Except.ok
        (((inv2 (pWUMatrix p0 p1)).a *
            (specCell size Xf Yf Wf tbl 4 + specCell size Xf Yf Wf tbl 6) +
          (inv2 (pWUMatrix p0 p1)).b *
            (specCell size Xf Yf Wf tbl 5 + specCell size Xf Yf Wf tbl 7)) /
         ((inv2 (pWUMatrix p0 p1)).a *
            (specCell size Xf Yf Wf tbl 0 + specCell size Xf Yf Wf tbl 2 +
             specCell size Xf Yf Wf tbl 4 + specCell size Xf Yf Wf tbl 6) +
          (inv2 (pWUMatrix p0 p1)).b *
            (specCell size Xf Yf Wf tbl 1 + specCell size Xf Yf Wf tbl 3 +
             specCell size Xf Yf Wf tbl 5 + specCell size Xf Yf Wf tbl 7)),
         ((inv2 (pWUMatrix p0 p1)).c *
            (specCell size Xf Yf Wf tbl 4 + specCell size Xf Yf Wf tbl 6) +
          (inv2 (pWUMatrix p0 p1)).d *
            (specCell size Xf Yf Wf tbl 5 + specCell size Xf Yf Wf tbl 7)) /
         ((inv2 (pWUMatrix p0 p1)).c *
            (specCell size Xf Yf Wf tbl 0 + specCell size Xf Yf Wf tbl 2 +
             specCell size Xf Yf Wf tbl 4 + specCell size Xf Yf Wf tbl 6) +
          (inv2 (pWUMatrix p0 p1)).d *
            (specCell size Xf Yf Wf tbl 1 + specCell size Xf Yf Wf tbl 3 +
             specCell size Xf Yf Wf tbl 5 + specCell size Xf Yf Wf tbl 7))) := by
  simp only [recover_propensity_score]
  rw [if_neg hdet, if_neg hsize]
  simp only [observedData8_eq_spec]
  rfl

/-- Helper: the sum of the estimates returned by `effect_restoration` is the
row count over the global size. -/
theorem effect_restoration_sum_eq (size : ℕ) (Xf Yf Wf : Obs → Bool)
    (p0 p1 : ℚ) (tbl : List Obs) (hsize : size ≠ 0)
    (hdet : det2 (pWUMatrix p0 p1) ≠ 0) :
    ∀ l, effect_restoration size Xf Yf Wf p0 p1 tbl = Except.ok l →
      l.sum = (tbl.length : ℚ) / size := by
  intro l hl
  rw [effect_restoration_ok size Xf Yf Wf p0 p1 tbl hsize hdet] at hl
  simp only [Except.ok.injEq] at hl
  subst hl
  have ha := inv2_pWU_colsum_left p0 p1 hdet
  have hb := inv2_pWU_colsum_right p0 p1 hdet
  have hsum := specCell_sum size Xf Yf Wf tbl
  simp only [List.range_succ, List.range_zero, List.map_append, List.map_cons,
    List.map_nil, List.sum_append, List.sum_cons, List.sum_nil] at hsum
  simp only [List.sum_cons, List.sum_nil]
  linear_combination
    (specCell size Xf Yf Wf tbl 0 + specCell size Xf Yf Wf tbl 2 +
      specCell size Xf Yf Wf tbl 4 + specCell size Xf Yf Wf tbl 6) * ha +
    (specCell size Xf Yf Wf tbl 1 + specCell size Xf Yf Wf tbl 3 +
      specCell size Xf Yf Wf tbl 5 + specCell size Xf Yf Wf tbl 7) * hb + hsum

/-- C10 counterexample: `recover_propensity_score`'s returned ratio estimates
are not scaled by `n/size`: at the two-row table `tblProp` with global
`size = 4` the result equals the correctly normalized run (`size = 2`), and
both differ from the claimed `n/size`-scaled values. -/
theorem recover_propensity_not_scaled_counterexample :
    recover_propensity_score 4 Obs.x Obs.y Obs.w (3 / 4) (1 / 4) tblProp =
      Except.ok (1, 1) ∧
    recover_propensity_score 2 Obs.x Obs.y Obs.w (3 / 4) (1 / 4) tblProp =
      Except.ok (1, 1) ∧
    ((1 : ℚ), (1 : ℚ)) ≠ (((2 : ℚ) / 4) * 1, ((2 : ℚ) / 4) * 1) := by
  refine ⟨?_, ?_, by norm_num [Prod.ext_iff]⟩
  · rw [recover_propensity_ok 4 Obs.x Obs.y Obs.w (3 / 4) (1 / 4) tblProp
      (by norm_num [det2, pWUMatrix]) (by norm_num)]
    norm_num [specCell, tblProp, natBit, inv2, det2, pWUMatrix,
      List.countP_cons, List.countP_nil]
  · rw [recover_propensity_ok 2 Obs.x Obs.y Obs.w (3 / 4) (1 / 4) tblProp
      (by norm_num [det2, pWUMatrix]) (by norm_num)]
    norm_num [specCell, tblProp, natBit, inv2, det2, pWUMatrix,
      List.countP_cons, List.countP_nil]

/-- C10 amended: `effect_restoration` and `recover_propensity_score`
normalize counts by the global `size` rather than the row count `n` of the
table passed in.  For every table: (i) the observed distribution both compute
sums to `n/size` instead of 1; (ii) `effect_restoration`'s returned estimates
are scaled by `n/size` relative to the correctly normalized run; (iii)
`recover_propensity_score`'s two ratio estimates are unchanged by the
mis-normalization (the factor cancels); (iv) the `effect_restoration` output
forms a probability distribution (sums to 1) exactly when `n = size`. -/
theorem global_size_normalization (size : ℕ) (Xf Yf Wf : Obs → Bool)
    (p0 p1 : ℚ) (tbl : List Obs) (hsize : size ≠ 0) (hn : tbl.length ≠ 0)
    (hdet : det2 (pWUMatrix p0 p1) ≠ 0) :
    (observedData8 size Xf Yf Wf tbl).sum = (tbl.length : ℚ) / size ∧
    (∀ l, effect_restoration tbl.length Xf Yf Wf p0 p1 tbl = Except.ok l →
      effect_restoration size Xf Yf Wf p0 p1 tbl =
        Except.ok (l.map (fun q => ((tbl.length : ℚ) / size) * q))) ∧
    (specPropDenomA Xf Yf Wf p0 p1 tbl ≠ 0 →
      specPropDenomB Xf Yf Wf p0 p1 tbl ≠ 0 →
      recover_propensity_score size Xf Yf Wf p0 p1 tbl =
        recover_propensity_score tbl.length Xf Yf Wf p0 p1 tbl) ∧
    (∀ l, effect_restoration size Xf Yf Wf p0 p1 tbl = Except.ok l →
      (l.sum = 1 ↔ tbl.length = size)) := by
  have hk : ((tbl.length : ℚ) / size) ≠ 0 :=
    div_ne_zero (Nat.cast_ne_zero.mpr hn) (Nat.cast_ne_zero.mpr hsize)
  refine ⟨?_, ?_, ?_, ?_⟩
  · rw [observedData8_eq_spec, specCell_sum]
  · intro l hl
    rw [effect_restoration_ok tbl.length Xf Yf Wf p0 p1 tbl hn hdet] at hl
    simp only [Except.ok.injEq] at hl
    subst hl
    rw [effect_restoration_ok size Xf Yf Wf p0 p1 tbl hsize hdet]
    simp only [List.map_cons, List.map_nil]
    simp only [specCell_scale size Xf Yf Wf tbl hn]
    simp only [Except.ok.injEq, List.cons.injEq, and_true]
    refine ⟨by ring, by ring, by ring, by ring, by ring, by ring, by ring, by ring⟩
  · intro _hA _hB
    rw [recover_propensity_ok size Xf Yf Wf p0 p1 tbl hdet hsize,
      recover_propensity_ok tbl.length Xf Yf Wf p0 p1 tbl hdet hn]
    simp only [specCell_scale size Xf Yf Wf tbl hn]
    simp only [Except.ok.injEq, Prod.mk.injEq]
    constructor
    · conv_rhs => rw [← mul_div_mul_left _ _ hk]
      congr 1 <;> ring
    · conv_rhs => rw [← mul_div_mul_left _ _ hk]
      congr 1 <;> ring
  · intro l hl
    rw [effect_restoration_sum_eq size Xf Yf Wf p0 p1 tbl hsize hdet l hl]
    rw [div_eq_one_iff_eq (Nat.cast_ne_zero.mpr hsize)]
    exact Nat.cast_inj

/-- Witness for the amended C10 at `tblProp` (2 rows) with global
`size = 4`. -/
theorem global_size_normalization_witness :
    ((4 : ℕ) ≠ 0 ∧ tblProp.length ≠ 0 ∧ det2 (pWUMatrix (3 / 4) (1 / 4)) ≠ 0 ∧
      specPropDenomA Obs.x Obs.y Obs.w (3 / 4) (1 / 4) tblProp ≠ 0 ∧
      specPropDenomB Obs.x Obs.y Obs.w (3 / 4) (1 / 4) tblProp ≠ 0) ∧
    (observedData8 4 Obs.x Obs.y Obs.w tblProp).sum = (tblProp.length : ℚ) / 4 ∧
    recover_propensity_score 4 Obs.x Obs.y Obs.w (3 / 4) (1 / 4) tblProp =
      recover_propensity_score tblProp.length Obs.x Obs.y Obs.w (3 / 4) (1 / 4) tblProp :=
  ⟨⟨by norm_num, by decide, by norm_num [det2, pWUMatrix],
    by norm_num [specPropDenomA, specCell, inv2, det2, pWUMatrix, tblProp, natBit,
      List.countP_cons, List.countP_nil],
    by norm_num [specPropDenomB, specCell, inv2, det2, pWUMatrix, tblProp, natBit,
      List.countP_cons, List.countP_nil]⟩,
   (global_size_normalization 4 Obs.x Obs.y Obs.w (3 / 4) (1 / 4) tblProp
     (by norm_num) (by decide) (by norm_num [det2, pWUMatrix])).1,
   (global_size_normalization 4 Obs.x Obs.y Obs.w (3 / 4) (1 / 4) tblProp
     (by norm_num) (by decide) (by norm_num [det2, pWUMatrix])).2.2.1
     (by norm_num [specPropDenomA, specCell, inv2, det2, pWUMatrix, tblProp, natBit,
       List.countP_cons, List.countP_nil])
     (by norm_num [specPropDenomB, specCell, inv2, det2, pWUMatrix, tblProp, natBit,
       List.countP_cons, List.countP_nil])⟩

/-! ## Claim C5 -/

/-- C5 counterexample: at the concrete table `tblSing` (where the moment
matrix `P` is singular), `two_proxy_effect_restoration` does not report
"not identifiable": the `np.linalg.inv(P)` call raises an uncaught
`LinAlgError`, modelled as the error value below. -/
theorem two_proxy_no_failure_report_counterexample :
    two_proxy_effect_restoration eigConst Obs.x Obs.y Obs.z Obs.w tblSing =
      Except.error "LinAlgError: Singular matrix" ∧
    two_proxy_effect_restoration eigConst Obs.x Obs.y Obs.z Obs.w tblSing ≠
      Except.error "not identifiable" := by
  have h : two_proxy_effect_restoration eigConst Obs.x Obs.y Obs.z Obs.w tblSing =
      Except.error "LinAlgError: Singular matrix" := by
    simp only [two_proxy_effect_restoration]
    rw [if_neg (by decide), if_pos (by norm_num [momentP, stratumX1, tblSing, det2])]
  exact ⟨h, by rw [h]; simp⟩

/-- C5 amended: when the moment matrix `P` is singular (and the treatment = 1
stratum is non-empty, so execution reaches the inversion),
`two_proxy_effect_restoration` raises an uncaught `LinAlgError` — modelled as
an error value naming that exception — rather than reporting the condition as
"not identifiable"; no failure mode is reported by the function. -/
theorem two_proxy_singular_P_raises (eig : Mat2 → Mat2) (Xf Yf Zf Wf : Obs → Bool)
    (tbl : List Obs) (hsub : stratumX1 Xf tbl ≠ [])
    (hP : det2 (momentP Zf Wf (stratumX1 Xf tbl)) = 0) :
    two_proxy_effect_restoration eig Xf Yf Zf Wf tbl =
      Except.error "LinAlgError: Singular matrix" := by
  have hlen : ¬(stratumX1 Xf tbl).length = 0 := by
    simpa [List.length_eq_zero] using hsub
  simp only [two_proxy_effect_restoration]
  rw [if_neg hlen, if_pos hP]

/-- Witness for the amended C5 at `tblSing`. -/
theorem two_proxy_singular_P_raises_witness :
    (stratumX1 Obs.x tblSing ≠ [] ∧
      det2 (momentP Obs.z Obs.w (stratumX1 Obs.x tblSing)) = 0) ∧
    two_proxy_effect_restoration eigConst Obs.x Obs.y Obs.z Obs.w tblSing =
      Except.error "LinAlgError: Singular matrix" :=
  ⟨⟨by decide, by norm_num [momentP, stratumX1, tblSing, det2]⟩,
   two_proxy_singular_P_raises eigConst Obs.x Obs.y Obs.z Obs.w tblSing
     (by decide) (by norm_num [momentP, stratumX1, tblSing, det2])⟩

/-! ## Claim C6 -/

/-- C6: no estimator contains explicit error handling.  If the treatment = 1
stratum is empty, `two_proxy_effect_restoration` raises `ZeroDivisionError`
at the first `len(...)/subset_size`; if the moment matrix `P` is singular,
its `np.linalg.inv` call raises (either `LinAlgError`, or `ZeroDivisionError`
already on an empty stratum); if the error matrix `M` of
`effect_restoration` is singular, the call raises (`LinAlgError`, or
`ZeroDivisionError` when the global `size` is 0).  In every case the call
surfaces an uncaught exception — modelled by `Except.error` — and never an
ordinary return value. -/
theorem no_error_handling (eig : Mat2 → Mat2) (Xf Yf Zf Wf : Obs → Bool)
    (size : ℕ) (p0 p1 : ℚ) (tbl : List Obs) :
    (stratumX1 Xf tbl = [] →
      two_proxy_effect_restoration eig Xf Yf Zf Wf tbl =
        Except.error "ZeroDivisionError: division by zero") ∧
    (det2 (momentP Zf Wf (stratumX1 Xf tbl)) = 0 →
      ∃ msg, two_proxy_effect_restoration eig Xf Yf Zf Wf tbl = Except.error msg) ∧
    (det2 (pWUMatrix p0 p1) = 0 →
      ∃ msg, effect_restoration size Xf Yf Wf p0 p1 tbl = Except.error msg) := by
  refine ⟨?_, ?_, ?_⟩
  · intro h
    simp only [two_proxy_effect_restoration]
    rw [if_pos (by rw [h]; rfl)]
  · intro h
    by_cases hlen : (stratumX1 Xf tbl).length = 0
    · exact ⟨"ZeroDivisionError: division by zero", by
        simp only [two_proxy_effect_restoration]; rw [if_pos hlen]⟩
    · exact ⟨"LinAlgError: Singular matrix", by
        simp only [two_proxy_effect_restoration]; rw [if_neg hlen, if_pos h]⟩
  · intro h
    by_cases hs : size = 0
    · exact ⟨"ZeroDivisionError: division by zero", by
        simp only [effect_restoration]; rw [if_pos hs]⟩
    · exact ⟨"LinAlgError: Singular matrix", by
        simp only [effect_restoration]; rw [if_neg hs, if_pos h]⟩

/-- Witness for C6: the empty table (empty stratum) and a singular error
matrix (`pWU0 = pWU1 = 1/2`). -/
theorem no_error_handling_witness :
    two_proxy_effect_restoration eigConst Obs.x Obs.y Obs.z Obs.w [] =
      Except.error "ZeroDivisionError: division by zero" ∧
    (∃ msg, two_proxy_effect_restoration eigConst Obs.x Obs.y Obs.z Obs.w [] =
      Except.error msg) ∧
    ∃ msg, effect_restoration 1 Obs.x Obs.y Obs.w (1 / 2) (1 / 2) [] =
      Except.error msg :=
  ⟨(no_error_handling eigConst Obs.x Obs.y Obs.z Obs.w 1 (1 / 2) (1 / 2) []).1 rfl,
   (no_error_handling eigConst Obs.x Obs.y Obs.z Obs.w 1 (1 / 2) (1 / 2) []).2.1
     (by norm_num [momentP, stratumX1, det2]),
   (no_error_handling eigConst Obs.x Obs.y Obs.z Obs.w 1 (1 / 2) (1 / 2) []).2.2
     (by norm_num [pWUMatrix, det2])⟩

/-! ## Claims C7 and C8 -/

/-- Each bootstrap resample has exactly as many rows as the input table. -/
theorem resampleTable_length (tbl : List Obs) (pick : ℕ → ℕ) :
    (resampleTable tbl pick).length = tbl.length := by
  simp [resampleTable]

/-- Helper: when every estimator call succeeds, the bootstrap loop collects
the two coordinate sequences of the `B` estimates, in iteration order. -/
theorem bootLoop_ok (eig : Mat2 → Mat2) (Xf Yf Zf Wf : Obs → Bool)
    (tbl : List Obs) (idx : ℕ → ℕ → ℕ) :
    ∀ (B : ℕ) (f : ℕ → ℚ × ℚ),
      (∀ i, i < B → two_proxy_effect_restoration eig Xf Yf Zf Wf
        (resampleTable tbl (idx i)) = Except.ok (f i)) →
      bootLoop eig Xf Yf Zf Wf tbl "two proxy" idx B =
        Except.ok (some ((List.range B).map (fun i => (f i).1),
                         (List.range B).map (fun i => (f i).2))) := by
  intro B
  induction B with
  | zero => intro f _; rfl
  | succ k ih =>
    intro f hf
    have ihk := ih f (fun i hi => hf i (Nat.lt_succ_of_lt hi))
    simp only [bootLoop, ihk, hf k (Nat.lt_succ_self k)]
    simp [List.range_succ]

/-- Model of `np.quantile` on a one-element list: every quantile is that
element. -/
theorem npQuantile_singleton (x q : ℚ) : npQuantile [x] q = x := by
  unfold npQuantile qfloor
  norm_num [List.insertionSort, List.orderedInsert]

/-- C7: for every table, RNG stream, bootstrap count `B > 0`, and `alpha`,
when the estimator succeeds on every resample, `compute_confidence_intervals`
with method "two proxy" performs the `B` sequential resamples — each with the
same number of rows as the input table — recomputes the two-proxy estimator
on each, and returns per output coordinate the pair of empirical
`(alpha/2, 1 - alpha/2)` quantiles (numpy linear interpolation) of the `B`
estimates. -/
theorem bootstrap_quantiles (eig : Mat2 → Mat2) (Xf Yf Zf Wf : Obs → Bool)
    (tbl : List Obs) (idx : ℕ → ℕ → ℕ) (B : ℕ) (alpha : ℚ) (f : ℕ → ℚ × ℚ)
    (hB : 0 < B)
    (hf : ∀ i, i < B → two_proxy_effect_restoration eig Xf Yf Zf Wf
      (resampleTable tbl (idx i)) = Except.ok (f i)) :
    (∀ i, (resampleTable tbl (idx i)).length = tbl.length) ∧
    compute_confidence_intervals eig Xf Yf Zf Wf tbl "two proxy" idx B alpha =
      Except.ok (some
        [(npQuantile ((List.range B).map (fun i => (f i).1)) (alpha / 2),
          npQuantile ((List.range B).map (fun i => (f i).1)) (1 - alpha / 2)),
         (npQuantile ((List.range B).map (fun i => (f i).2)) (alpha / 2),
          npQuantile ((List.range B).map (fun i => (f i).2)) (1 - alpha / 2))]) := by
  refine ⟨fun i => resampleTable_length tbl (idx i), ?_⟩
  simp only [compute_confidence_intervals, bootLoop_ok eig Xf Yf Zf Wf tbl idx B f hf]
  simp [hB.ne']

/-- C8: run with `num_bootstraps = 1`, the bootstrap utility returns for each
output coordinate a degenerate interval whose lower and upper quantiles both
equal the point estimate computed on that single resample. -/
theorem bootstrap_single_degenerate (eig : Mat2 → Mat2) (Xf Yf Zf Wf : Obs → Bool)
    (tbl : List Obs) (idx : ℕ → ℕ → ℕ) (alpha : ℚ) (v : ℚ × ℚ)
    (h : two_proxy_effect_restoration eig Xf Yf Zf Wf
      (resampleTable tbl (idx 0)) = Except.ok v) :
    compute_confidence_intervals eig Xf Yf Zf Wf tbl "two proxy" idx 1 alpha =
      Except.ok (some [(v.1, v.1), (v.2, v.2)]) := by
  have hloop := bootLoop_ok eig Xf Yf Zf Wf tbl idx 1 (fun _ => v)
    (fun i hi => by interval_cases i; exact h)
  simp only [compute_confidence_intervals, hloop]
  simp [npQuantile_singleton]

/-- Helper: the identity index stream resamples `tblTwo` to itself. -/
theorem resample_id_tblTwo : resampleTable tblTwo (fun j => j) = tblTwo := by
  decide

/-- Helper: concrete evaluation of the two-proxy estimator on `tblTwo` with
the eigendecomposition `eigConst`. -/
theorem two_proxy_tblTwo_eval :
    two_proxy_effect_restoration eigConst Obs.x Obs.y Obs.z Obs.w tblTwo =
      Except.ok (-(1 : ℚ) / 2, -1) := by
  simp only [two_proxy_effect_restoration]
  rw [if_neg (show ¬(stratumX1 Obs.x tblTwo).length = 0 by decide)]
  rw [if_neg (show ¬det2 (momentP Obs.z Obs.w (stratumX1 Obs.x tblTwo)) = 0 by
    norm_num [momentP, stratumX1, tblTwo, det2])]
  rw [if_neg (show ¬det2 (eigConst (mul2 (inv2 (momentP Obs.z Obs.w (stratumX1 Obs.x tblTwo)))
      (momentQ Obs.y Obs.z Obs.w (stratumX1 Obs.x tblTwo)))) = 0 by
    norm_num [eigConst, det2])]
  norm_num [inv2, det2, eigConst]

/-- Witness for C7 at `tblTwo`, the identity RNG stream, `B = 2`,
`alpha = 1/20`. -/
theorem bootstrap_quantiles_witness :
    ((0 < 2) ∧ (∀ i, i < 2 → two_proxy_effect_restoration eigConst Obs.x Obs.y Obs.z Obs.w
        (resampleTable tblTwo ((fun _ j => j) i)) = Except.ok (-(1 : ℚ) / 2, -1))) ∧
    compute_confidence_intervals eigConst Obs.x Obs.y Obs.z Obs.w tblTwo "two proxy"
        (fun _ j => j) 2 (1 / 20) =
      Except.ok (some [(-(1 : ℚ) / 2, -(1 : ℚ) / 2), (-1, -1)]) := by
  have hf : ∀ i, i < 2 → two_proxy_effect_restoration eigConst Obs.x Obs.y Obs.z Obs.w
      (resampleTable tblTwo ((fun _ j => j) i)) = Except.ok (-(1 : ℚ) / 2, -1) := by
    intro i _
    rw [show resampleTable tblTwo ((fun _ j => j) i) = tblTwo from resample_id_tblTwo]
    exact two_proxy_tblTwo_eval
  refine ⟨⟨by norm_num, hf⟩, ?_⟩
  rw [(bootstrap_quantiles eigConst Obs.x Obs.y Obs.z Obs.w tblTwo (fun _ j => j) 2
    (1 / 20) (fun _ => (-(1 : ℚ) / 2, -1)) (by norm_num) hf).2]
  norm_num [npQuantile, qfloor, List.insertionSort, List.orderedInsert, List.range_succ]

/-- Witness for C8 at `tblTwo`, the identity RNG stream, `alpha = 1/20`. -/
theorem bootstrap_single_degenerate_witness :
    two_proxy_effect_restoration eigConst Obs.x Obs.y Obs.z Obs.w
      (resampleTable tblTwo ((fun _ j => j) 0)) = Except.ok (-(1 : ℚ) / 2, -1) ∧
    compute_confidence_intervals eigConst Obs.x Obs.y Obs.z Obs.w tblTwo "two proxy"
      (fun _ j => j) 1 (1 / 20) =
      Except.ok (some [(-(1 : ℚ) / 2, -(1 : ℚ) / 2), (-1, -1)]) := by
  have h : two_proxy_effect_restoration eigConst Obs.x Obs.y Obs.z Obs.w
      (resampleTable tblTwo ((fun _ j => j) 0)) = Except.ok (-(1 : ℚ) / 2, -1) := by
    rw [show resampleTable tblTwo ((fun _ j => j) 0) = tblTwo from resample_id_tblTwo]
    exact two_proxy_tblTwo_eval
  exact ⟨h, by rw [bootstrap_single_degenerate eigConst Obs.x Obs.y Obs.z Obs.w tblTwo
    (fun _ j => j) (1 / 20) (-(1 : ℚ) / 2, -1) h]⟩

/-! ## Claim C9 -/

theorem store_getD_set_ne (s : Store) (n m : ℕ) (t : List Obs) (h : n ≠ m) :
    (s.set n t).getD m [] = s.getD m [] := by
  simp [List.getD, List.getElem?_set_ne h]

theorem store_getD_append (s l : Store) (m : ℕ) (h : m < s.length) :
    (s ++ l).getD m [] = s.getD m [] :=
  List.getD_append s l [] m h

/-- Helper: one whole run of the store-level bootstrap loop never writes any
cell that existed before the call; in particular the caller's `data` cell is
intact, and the store only grows. -/
theorem bootStoreLoop_frame (eig : Mat2 → Mat2) (Xf Yf Zf Wf : Obs → Bool)
    (idx : ℕ → ℕ → ℕ) (dref : ℕ) :
    ∀ (B : ℕ) (s : Store), dref < s.length →
      ∀ s', bootStoreLoop eig Xf Yf Zf Wf idx dref B s = Except.ok s' →
        s'.getD dref [] = s.getD dref [] ∧ s.length ≤ s'.length := by
  intro B
  induction B with
  | zero =>
    intro s _ s' h
    simp only [bootStoreLoop, Except.ok.injEq] at h
    subst h
    exact ⟨rfl, le_refl _⟩
  | succ k ih =>
    intro s hd s' h
    simp only [bootStoreLoop] at h
    split at h
    · cases h
    · rename_i s1 hk
      split at h
      · cases h
      · rename_i out he
        simp only [Except.ok.injEq] at h
        subst h
        obtain ⟨h1, hlen1⟩ := ih s hd s1 hk
        have hd1 : dref < s1.length := lt_of_lt_of_le hd hlen1
        constructor
        · rw [store_getD_set_ne _ _ _ _ (Nat.ne_of_gt hd1),
            store_getD_append _ _ _ hd1, h1]
        · have hlen2 : s.length ≤ s1.length := hlen1
          simp only [List.length_set, List.length_append, List.length_cons,
            List.length_nil]
          omega

/-- C9: `two_proxy_effect_restoration` is a pure function of its input table
— at the store level it only reads cell `r` and allocates fresh frames, so
every pre-existing cell is unchanged and the returned value is exactly the
pure function of the table read — and the bootstrap loop of
`compute_confidence_intervals` leaves the caller's table unchanged: each
resample is an independent fresh copy, and the in-place `reset_index` hits
only that fresh cell, so after the call the caller's cell holds exactly the
rows it held before. -/
theorem estimator_and_bootstrap_no_mutation (eig : Mat2 → Mat2)
    (Xf Yf Zf Wf : Obs → Bool) (idx : ℕ → ℕ → ℕ) (s : Store) (r dref B : ℕ)
    (hd : dref < s.length) :
    (∀ j, j < s.length →
      ((twoProxyStore eig Xf Yf Zf Wf s r).1).getD j [] = s.getD j []) ∧
    ((twoProxyStore eig Xf Yf Zf Wf s r).2 =
      two_proxy_effect_restoration eig Xf Yf Zf Wf (s.getD r [])) ∧
    (∀ s', bootStoreLoop eig Xf Yf Zf Wf idx dref B s = Except.ok s' →
      s'.getD dref [] = s.getD dref []) := by
  refine ⟨?_, rfl, ?_⟩
  · intro j hj
    exact store_getD_append s _ j hj
  · intro s' h
    exact (bootStoreLoop_frame eig Xf Yf Zf Wf idx dref B s hd s' h).1

/-- Witness for C9: a one-cell store holding `tblTwo`, one bootstrap
iteration. -/
theorem estimator_and_bootstrap_no_mutation_witness :
    ((0 : ℕ) < [tblTwo].length) ∧
    (∀ j, j < [tblTwo].length →
      ((twoProxyStore eigConst Obs.x Obs.y Obs.z Obs.w [tblTwo] 0).1).getD j [] =
        [tblTwo].getD j []) ∧
    ∀ s', bootStoreLoop eigConst Obs.x Obs.y Obs.z Obs.w (fun _ j => j) 0 1 [tblTwo] =
      Except.ok s' → s'.getD 0 [] = [tblTwo].getD 0 [] :=
  ⟨by norm_num,
   (estimator_and_bootstrap_no_mutation eigConst Obs.x Obs.y Obs.z Obs.w
     (fun _ j => j) [tblTwo] 0 0 1 (by norm_num)).1,
   (estimator_and_bootstrap_no_mutation eigConst Obs.x Obs.y Obs.z Obs.w
     (fun _ j => j) [tblTwo] 0 0 1 (by norm_num)).2.2⟩
